import Mathlib

set_option maxRecDepth 100000

/-!
Verification of the human-in-the-loop investment-approval workflow
(`human_in_loop/main_invest_approval.py`).

Python strings are modelled as `List Char` (Python strings are sequences of
code points), with `pyStrip`, `pyLower` mirroring `str.strip()` / `str.lower()`.
The turn-manager handlers (`start`, `on_agent_response`, `on_human_feedback`)
are translated as pure functions returning the list of effects (messages sent,
outputs yielded) they perform on the workflow context, in program order.
The caller loop of `main` is modelled one iteration at a time over the event
list of a single invocation.  JSON-schema validation of the model output
(pydantic `model_validate_json`) is an external collaborator and is passed in
as an opaque `parse` function.
-/

namespace InvestApproval

/-- Python `str`, as a sequence of code points. -/
abbrev Str := List Char

/-- Python `str.strip()`: remove leading and trailing whitespace. -/
def pyStrip (s : Str) : Str :=
  ((s.dropWhile Char.isWhitespace).reverse.dropWhile Char.isWhitespace).reverse

/-- Python `str.lower()`: case-fold every character. -/
def pyLower (s : Str) : Str :=
  s.map Char.toLower

/-- Python `str.startswith(pat)` on code-point lists. -/
def startsWithList : Str → Str → Bool
  | [], _ => true
  | _ :: _, [] => false
  | p :: ps, c :: cs => p == c && startsWithList ps cs

/-- Substring containment test: does `pat` occur contiguously inside the
second argument? -/
def containsSub (pat : Str) : Str → Bool
  | [] => pat.isEmpty
  | c :: rest => startsWithList pat (c :: rest) || containsSub pat rest

/-- `Role` of a chat message (only the roles used by the source). -/
inductive Role
  | user
  | assistant
  deriving DecidableEq

/-- `ChatMessage(role, text=...)`. -/
structure ChatMessage where
  role : Role
  text : Str
  deriving DecidableEq

/-- `AgentExecutorRequest(messages=..., should_respond=...)`. -/
structure AgentExecutorRequest where
  messages : List ChatMessage
  should_respond : Bool
  deriving DecidableEq

/-- `InvestmentApprovalRequest`: request sent to the human for investment
decision approval (a `RequestInfoMessage`). -/
structure InvestmentApprovalRequest where
  prompt : Str
  recommendation : Str
  ticker : Str
  deriving DecidableEq

/-- `InvestmentRecommendation`: structured output from the investment agent,
field order as in the source. -/
structure InvestmentRecommendation where
  ticker : Str
  action : Str
  rationale : Str
  confidence : Str
  deriving DecidableEq

/-- One effect a turn-manager handler performs on its `WorkflowContext`:
`ctx.yield_output`, or `ctx.send_message` of one of the two message types. -/
inductive TurnEffect
  | yieldOutput (value : Str)
  | sendAgentRequest (req : AgentExecutorRequest)
  | sendApprovalRequest (req : InvestmentApprovalRequest)
  deriving DecidableEq

/-- The 60-character separator line `"=" * 60`. -/
def eqLine : Str := List.replicate 60 '='

/-- The formatted approval prompt built in the `try` branch of
`on_agent_response`. -/
def formatPrompt (r : InvestmentRecommendation) : Str :=
  "\n".data ++ eqLine ++ "\n".data ++
  "INVESTMENT RECOMMENDATION\n".data ++
  eqLine ++ "\n".data ++
  "Ticker: ".data ++ r.ticker ++ "\n".data ++
  "Action: ".data ++ r.action ++ "\n".data ++
  "Confidence: ".data ++ r.confidence ++ "\n".data ++
  "Rationale: ".data ++ r.rationale ++ "\n".data ++
  eqLine ++ "\n\n".data ++
  "Type one of:\n".data ++
  "  approve - Execute this recommendation\n".data ++
  "  refine <feedback> - Request modifications (e.g., \x27refine focus on risk factors\x27)\n".data ++
  "  exit - Cancel and exit\n".data

/-- The degraded prompt built in the `except` branch of `on_agent_response`
when parsing fails. -/
def degradedPrompt (text : Str) : Str :=
  "\n".data ++ eqLine ++ "\n".data ++
  "INVESTMENT ANALYSIS\n".data ++
  eqLine ++ "\n".data ++
  text ++ "\n".data ++
  eqLine ++ "\n\n".data ++
  "Type one of: approve, refine <feedback>, or exit\n".data

/-- Text of the refinement message sent back to the agent in
`on_human_feedback`. -/
def refinementMessageText (fb : Str) : Str :=
  "Please refine your recommendation based on this feedback: ".data ++ fb ++
  ". Return a JSON object matching the schema: \x7b\"ticker\": str, \"action\": str, \"rationale\": str, \"confidence\": str\x7d".data

/-- Text of the re-prompt message sent to the agent on invalid input. -/
def repromptText : Str :=
  "Please provide a valid investment recommendation in JSON format.".data

/-- The terminal output yielded on approval. -/
def approveOutputText (ticker : Str) : Str :=
  "Investment recommendation for ".data ++ ticker ++
  " approved and ready for execution.".data

/-- `InvestmentTurnManager.start`: initiate the analysis. -/
def start (ticker : Str) : List TurnEffect :=
  [TurnEffect.sendAgentRequest
    ⟨[⟨Role.user,
       "Analyze ".data ++ ticker ++
       " and provide an investment recommendation with rationale.".data⟩], true⟩]

/-- `InvestmentTurnManager.on_agent_response`: handle the agent
recommendation and request human approval.  `parse` stands for pydantic
`InvestmentRecommendation.model_validate_json`; the `try`/`except` of the
source is the `some`/`none` split.  `responseText` is
`result.agent_run_response.text`, with `or ""` modelled by `getD []`. -/
def on_agent_response (parse : Str → Option InvestmentRecommendation)
    (responseText : Option Str) : List TurnEffect :=
  let text := responseText.getD []
  match parse text with
  | some recommendation =>
      [TurnEffect.sendApprovalRequest
        ⟨formatPrompt recommendation, text, recommendation.ticker⟩]
  | none =>
      [TurnEffect.sendApprovalRequest ⟨degradedPrompt text, text, []⟩]

/-- `InvestmentTurnManager.on_human_feedback`: process human approval or
refinement.  `data` is `feedback.data` (`or ""` modelled by `getD []`);
`original_request` is `feedback.original_request`. -/
def on_human_feedback (data : Option Str)
    (original_request : InvestmentApprovalRequest) : List TurnEffect :=
  let reply := pyLower (pyStrip (data.getD []))
  let ticker := original_request.ticker
  if reply = "approve".data then
    [TurnEffect.yieldOutput (approveOutputText ticker)]
  else if startsWithList "refine".data reply then
    let refinement_feedback :=
      if reply.length > 6 then pyStrip (reply.drop 6)
      else "provide more details".data
    [TurnEffect.sendAgentRequest
      ⟨[⟨Role.user, refinementMessageText refinement_feedback⟩], true⟩]
  else
    [TurnEffect.sendAgentRequest ⟨[⟨Role.user, repromptText⟩], true⟩]

/-- Run states surfaced by `WorkflowStatusEvent` that `main` inspects. -/
inductive WorkflowRunState
  | inProgress
  | inProgressPendingRequests
  | idleWithPendingRequests
  | idle
  deriving DecidableEq

/-- One event of the stream consumed by the caller loop in `main`:
`RequestInfoEvent` (with `InvestmentApprovalRequest` data),
`WorkflowOutputEvent`, or `WorkflowStatusEvent`. -/
inductive WorkflowEvent
  | requestInfo (request_id : Str) (data : InvestmentApprovalRequest)
  | output (data : Str)
  | status (state : WorkflowRunState)
  deriving DecidableEq

/-- Whether an event is a `WorkflowOutputEvent`. -/
def isOutputEvent : WorkflowEvent → Bool
  | WorkflowEvent.output _ => true
  | _ => false

/-- The `requests` list collected by `main` from one invocation stream:
`(event.request_id, event.data.prompt)` for each request-info event. -/
def collectRequests (events : List WorkflowEvent) : List (Str × Str) :=
  events.filterMap fun e =>
    match e with
    | WorkflowEvent.requestInfo rid d => some (rid, d.prompt)
    | _ => none

/-- The final value of `workflow_output` after scanning events in order
(each output event overwrites it). -/
def lastOutput (events : List WorkflowEvent) : Option Str :=
  events.foldl
    (fun acc e =>
      match e with
      | WorkflowEvent.output s => some s
      | _ => acc)
    none

/-- The response-collection loop of `main`: one `input()` per request (its
answer given by `answer`, keyed by request id, then stripped and lowered);
typing `exit` returns from `main` immediately, modelled as `none`. -/
def collectAnswers (answer : Str → Str) : List (Str × Str) → Option (List (Str × Str))
  | [] => some []
  | (rid, _) :: rest =>
      let a := pyLower (pyStrip (answer rid))
      if a = "exit".data then none
      else
        match collectAnswers answer rest with
        | none => none
        | some rs => some ((rid, a) :: rs)

/-- Outcome of one iteration of the `while not completed` loop in `main`. -/
inductive IterResult
  | resumeWith (responses : List (Str × Str))
  | finished (output : Option Str)
  | cancelled
  | restart
  deriving DecidableEq

/-- One iteration of the caller loop in `main` over the events of one
invocation: record requests, set `completed` when an output event appears,
then collect human responses only `if requests and not completed`. -/
def loopIteration (events : List WorkflowEvent) (answer : Str → Str) : IterResult :=
  let requests := collectRequests events
  let completed := events.any isOutputEvent
  if completed then IterResult.finished (lastOutput events)
  else if requests.isEmpty then IterResult.restart
  else
    match collectAnswers answer requests with
    | none => IterResult.cancelled
    | some rs => IterResult.resumeWith rs

/-- Modelled from the spec: the Request/Response Broker
(`RequestInfoExecutor` of the `agent_framework` package) is not part of this
repository sources; per the spec it tracks in-flight pending requests by
unique id — "random token or monotonically increasing counter scoped to the
run" — and `resolve` removes the entry.  `issued` is the history of every id
ever handed out in the run. -/
structure Broker where
  nextId : Nat
  pending : List (Nat × Str)
  issued : List Nat
  deriving DecidableEq

/-- Modelled from the spec: the broker state at the beginning of a run. -/
def Broker.init : Broker := ⟨0, [], []⟩

/-- Modelled from the spec: `register(origin, payload) → id`, always
succeeds, issues a fresh id. -/
def Broker.register (b : Broker) (payload : Str) : Nat × Broker :=
  (b.nextId, ⟨b.nextId + 1, (b.nextId, payload) :: b.pending, b.nextId :: b.issued⟩)

/-- Modelled from the spec: `resolve(id, answer)` fails on an unknown or
already-resolved id and removes the entry on success. -/
def Broker.resolve (b : Broker) (id : Nat) : Option Broker :=
  if (b.pending.lookup id).isSome then
    some ⟨b.nextId, b.pending.filter (fun p => p.1 != id), b.issued⟩
  else none

/-- One broker operation of a run (registrations and resolutions interleave
across `start` and the `resume` calls). -/
inductive BrokerOp
  | register (payload : Str)
  | resolve (id : Nat)

/-- Apply one operation; a failing `resolve` leaves the broker unchanged. -/
def Broker.applyOp (b : Broker) : BrokerOp → Broker
  | BrokerOp.register p => (b.register p).2
  | BrokerOp.resolve id =>
      match b.resolve id with
      | none => b
      | some b2 => b2

/-- Run a whole sequence of broker operations. -/
def Broker.runOps (b : Broker) : List BrokerOp → Broker
  | [] => b
  | op :: ops => Broker.runOps (b.applyOp op) ops

/-- Broker invariant: issued ids are pairwise distinct and below the
counter. -/
def Broker.wf (b : Broker) : Prop :=
  b.issued.Nodup ∧ ∀ i ∈ b.issued, i < b.nextId

/-! ### Helper lemmas -/

lemma startsWithList_self_append (p r : Str) : startsWithList p (p ++ r) = true := by
  induction p with
  | nil => rfl
  | cons c cs ih => simp [startsWithList, ih]

lemma containsSub_nil_pat (l : Str) : containsSub [] l = true := by
  cases l with
  | nil => rfl
  | cons c rest => simp [containsSub, startsWithList]

lemma containsSub_of_parts (pat u v l : Str) (h : l = u ++ pat ++ v) :
    containsSub pat l = true := by
  subst h
  induction u with
  | nil =>
      cases pat with
      | nil => simpa using containsSub_nil_pat v
      | cons p ps =>
          simpa [containsSub] using Or.inl (startsWithList_self_append (p :: ps) v)
  | cons c cs ih =>
      simpa [containsSub] using Or.inr ih

lemma lastOutput_aux (events : List WorkflowEvent) (acc : Option Str)
    (h : (∃ s, WorkflowEvent.output s ∈ events) ∨ acc.isSome = true) :
    (events.foldl
      (fun acc e =>
        match e with
        | WorkflowEvent.output s => some s
        | _ => acc)
      acc).isSome = true := by
  induction events generalizing acc with
  | nil =>
      rcases h with ⟨s, hs⟩ | h
      · simp at hs
      · simpa using h
  | cons e rest ih =>
      cases e with
      | output t => exact ih (some t) (Or.inr rfl)
      | requestInfo rid d =>
          refine ih acc ?_
          rcases h with ⟨s, hs⟩ | h
          · rcases List.mem_cons.mp hs with heq | hmem
            · exact absurd heq (by simp)
            · exact Or.inl ⟨s, hmem⟩
          · exact Or.inr h
      | status st =>
          refine ih acc ?_
          rcases h with ⟨s, hs⟩ | h
          · rcases List.mem_cons.mp hs with heq | hmem
            · exact absurd heq (by simp)
            · exact Or.inl ⟨s, hmem⟩
          · exact Or.inr h

lemma collectAnswers_none_of_exit (answer : Str → Str) (reqs : List (Str × Str))
    (rid p : Str) (hmem : (rid, p) ∈ reqs)
    (hexit : pyLower (pyStrip (answer rid)) = "exit".data) :
    collectAnswers answer reqs = none := by
  induction reqs with
  | nil => simp at hmem
  | cons r rest ih =>
      obtain ⟨a, b⟩ := r
      rcases List.mem_cons.mp hmem with heq | hmem2
      · injection heq with h1 h2
        subst h1
        simp [collectAnswers, hexit]
      · simp only [collectAnswers]
        rw [ih hmem2]
        split <;> simp

lemma Broker.wf_applyOp (b : Broker) (op : BrokerOp) (h : b.wf) :
    (b.applyOp op).wf := by
  obtain ⟨hnodup, hbound⟩ := h
  cases op with
  | register p =>
      constructor
      · refine List.nodup_cons.mpr ⟨?_, hnodup⟩
        intro hmem
        exact absurd (hbound _ hmem) (lt_irrefl _)
      · intro i hi
        rcases List.mem_cons.mp hi with rfl | hi
        · exact Nat.lt_succ_self _
        · exact Nat.lt_succ_of_lt (hbound _ hi)
  | resolve id =>
      simp only [Broker.applyOp, Broker.resolve]
      by_cases hc : (b.pending.lookup id).isSome = true
      · rw [if_pos hc]
        exact ⟨hnodup, hbound⟩
      · rw [if_neg hc]
        exact ⟨hnodup, hbound⟩

lemma Broker.wf_runOps (ops : List BrokerOp) (b : Broker) (h : b.wf) :
    (Broker.runOps b ops).wf := by
  induction ops generalizing b with
  | nil => exact h
  | cons op rest ih => exact ih _ (Broker.wf_applyOp b op h)

/-! ### Claim theorems -/

/-- C1: for every human reply whose trimmed, case-folded form equals
"approve", `on_human_feedback` yields exactly one terminal output equal to
"Investment recommendation for {ticker} approved and ready for execution." —
containing the originating request ticker and the word "approved" — and
emits no further message to the agent node. -/
theorem approve_yields_terminal_output (data : Str) (req : InvestmentApprovalRequest)
    (h : pyLower (pyStrip data) = "approve".data) :
    on_human_feedback (some data) req =
      [TurnEffect.yieldOutput (approveOutputText req.ticker)] ∧
    containsSub req.ticker (approveOutputText req.ticker) = true ∧
    containsSub "approved".data (approveOutputText req.ticker) = true := by
  refine ⟨?_, ?_, ?_⟩
  · simp [on_human_feedback, h]
  · exact containsSub_of_parts _ "Investment recommendation for ".data
      " approved and ready for execution.".data _ rfl
  · refine containsSub_of_parts _
      ("Investment recommendation for ".data ++ req.ticker ++ " ".data)
      " and ready for execution.".data _ ?_
    simp [approveOutputText, List.append_assoc]

/-- C1 witness: the concrete reply "  APPROVE " on a request for AAPL. -/
theorem approve_yields_terminal_output_witness :
    on_human_feedback (some "  APPROVE ".data) ⟨[], [], "AAPL".data⟩ =
      [TurnEffect.yieldOutput (approveOutputText "AAPL".data)] ∧
    containsSub "AAPL".data (approveOutputText "AAPL".data) = true ∧
    containsSub "approved".data (approveOutputText "AAPL".data) = true :=
  approve_yields_terminal_output "  APPROVE ".data ⟨[], [], "AAPL".data⟩ (by decide)

/-- C2: when the agent response text fails to parse as the structured
schema, `on_agent_response` does not fail: it still emits exactly one
`InvestmentApprovalRequest` whose prompt contains the raw response text. -/
theorem parse_failure_degraded_request (parse : Str → Option InvestmentRecommendation)
    (responseText : Option Str) (h : parse (responseText.getD []) = none) :
    on_agent_response parse responseText =
      [TurnEffect.sendApprovalRequest
        ⟨degradedPrompt (responseText.getD []), responseText.getD [], []⟩] ∧
    containsSub (responseText.getD []) (degradedPrompt (responseText.getD [])) = true := by
  constructor
  · simp [on_agent_response, h]
  · refine containsSub_of_parts _
      ("\n".data ++ eqLine ++ "\n".data ++ "INVESTMENT ANALYSIS\n".data ++
        eqLine ++ "\n".data)
      ("\n".data ++ eqLine ++ "\n\n".data ++
        "Type one of: approve, refine <feedback>, or exit\n".data) _ ?_
    simp only [degradedPrompt, List.append_assoc]

/-- C2 witness: a concrete unparseable response text. -/
theorem parse_failure_degraded_request_witness :
    on_agent_response (fun _ => none) (some "not a JSON object".data) =
      [TurnEffect.sendApprovalRequest
        ⟨degradedPrompt ((some "not a JSON object".data).getD []),
         (some "not a JSON object".data).getD [], []⟩] ∧
    containsSub ((some "not a JSON object".data).getD [])
      (degradedPrompt ((some "not a JSON object".data).getD [])) = true :=
  parse_failure_degraded_request (fun _ => none) (some "not a JSON object".data) rfl

/-- C3 (amended): for every human reply starting (after trimming and
case-folding) with "refine" and longer than 6 characters,
`on_human_feedback` yields no output and emits exactly one refinement
request to the agent node whose message text carries the trailing feedback
text of the trimmed, case-folded reply (not the reply as literally typed). -/
theorem refine_forwards_folded_feedback (data : Str) (req : InvestmentApprovalRequest)
    (h1 : startsWithList "refine".data (pyLower (pyStrip data)) = true)
    (h2 : (pyLower (pyStrip data)).length > 6) :
    on_human_feedback (some data) req =
      [TurnEffect.sendAgentRequest
        ⟨[⟨Role.user,
           refinementMessageText (pyStrip ((pyLower (pyStrip data)).drop 6))⟩], true⟩] ∧
    containsSub (pyStrip ((pyLower (pyStrip data)).drop 6))
      (refinementMessageText (pyStrip ((pyLower (pyStrip data)).drop 6))) = true := by
  have hne : ¬(pyLower (pyStrip data) = "approve".data) := by
    intro hq
    rw [hq] at h1
    exact absurd h1 (by decide)
  constructor
  · simp only [on_human_feedback, Option.getD_some]
    rw [if_neg hne, if_pos h1, if_pos h2]
  · exact containsSub_of_parts _
      "Please refine your recommendation based on this feedback: ".data
      ". Return a JSON object matching the schema: \x7b\"ticker\": str, \"action\": str, \"rationale\": str, \"confidence\": str\x7d".data
      _ rfl

/-- C3 witness: the concrete reply "refine Focus on RISK". -/
theorem refine_forwards_folded_feedback_witness :
    on_human_feedback (some "refine Focus on RISK".data) ⟨[], [], "MSFT".data⟩ =
      [TurnEffect.sendAgentRequest
        ⟨[⟨Role.user,
           refinementMessageText
             (pyStrip ((pyLower (pyStrip "refine Focus on RISK".data)).drop 6))⟩], true⟩] ∧
    containsSub (pyStrip ((pyLower (pyStrip "refine Focus on RISK".data)).drop 6))
      (refinementMessageText
        (pyStrip ((pyLower (pyStrip "refine Focus on RISK".data)).drop 6))) = true :=
  refine_forwards_folded_feedback "refine Focus on RISK".data ⟨[], [], "MSFT".data⟩
    (by decide) (by decide)

/-- C3 counterexample: the reply "refine Focus on RISK" re-invokes the agent
with feedback text "focus on risk"; the message does not carry the trailing
text "Focus on RISK" exactly as given by the human. -/
theorem refine_case_not_preserved :
    on_human_feedback (some "refine Focus on RISK".data) ⟨[], [], "AAPL".data⟩ =
      [TurnEffect.sendAgentRequest
        ⟨[⟨Role.user, refinementMessageText "focus on risk".data⟩], true⟩] ∧
    containsSub "Focus on RISK".data (refinementMessageText "focus on risk".data) = false := by
  constructor
  · decide
  · decide

/-- C4 (amended): for every human reply whose trimmed, case-folded form is
not "approve", is not "exit", and does not begin with "refine",
`on_human_feedback` yields no output and emits exactly one message to the
agent node asking for a valid structured answer. -/
theorem invalid_reply_reprompt (data : Str) (req : InvestmentApprovalRequest)
    (h1 : pyLower (pyStrip data) ≠ "approve".data)
    (h2 : startsWithList "refine".data (pyLower (pyStrip data)) = false)
    (_h3 : pyLower (pyStrip data) ≠ "exit".data) :
    on_human_feedback (some data) req =
      [TurnEffect.sendAgentRequest ⟨[⟨Role.user, repromptText⟩], true⟩] := by
  simp only [on_human_feedback, Option.getD_some]
  rw [if_neg h1, if_neg (by simp [h2])]

/-- C4 witness: the concrete reply "maybe". -/
theorem invalid_reply_reprompt_witness :
    on_human_feedback (some "maybe".data) ⟨[], [], "TSLA".data⟩ =
      [TurnEffect.sendAgentRequest ⟨[⟨Role.user, repromptText⟩], true⟩] :=
  invalid_reply_reprompt "maybe".data ⟨[], [], "TSLA".data⟩
    (by decide) (by decide) (by decide)

/-- C4 counterexample: the reply "refinements" is none of the accepted
literals and not of the form "refine <free text>", yet the code sends a
refinement request (feedback "ments") to the agent node instead of the
re-prompt message asking for a valid structured answer. -/
theorem refine_prefix_reaches_refine_branch :
    on_human_feedback (some "refinements".data) ⟨[], [], "TSLA".data⟩ =
      [TurnEffect.sendAgentRequest
        ⟨[⟨Role.user, refinementMessageText "ments".data⟩], true⟩] ∧
    on_human_feedback (some "refinements".data) ⟨[], [], "TSLA".data⟩ ≠
      [TurnEffect.sendAgentRequest ⟨[⟨Role.user, repromptText⟩], true⟩] := by
  constructor
  · decide
  · decide

/-- C5: once a `WorkflowOutputEvent` is observed in an invocation event
stream, the caller loop records the output and exits; request-info events of
the same stream are not answered, and no resume happens. -/
theorem output_event_ends_caller_loop (events : List WorkflowEvent)
    (answer : Str → Str) (s : Str) (h : WorkflowEvent.output s ∈ events) :
    loopIteration events answer = IterResult.finished (lastOutput events) ∧
    ∃ v, lastOutput events = some v := by
  have hany : events.any isOutputEvent = true :=
    List.any_eq_true.mpr ⟨_, h, rfl⟩
  constructor
  · simp [loopIteration, hany]
  · have h2 : (lastOutput events).isSome = true :=
      lastOutput_aux events none (Or.inl ⟨s, h⟩)
    exact Option.isSome_iff_exists.mp h2

/-- C5 witness: a stream with an output event and an unanswered request. -/
theorem output_event_ends_caller_loop_witness :
    loopIteration
      [WorkflowEvent.requestInfo "id1".data ⟨"p".data, [], []⟩,
       WorkflowEvent.output "done".data] (fun _ => []) =
      IterResult.finished
        (lastOutput
          [WorkflowEvent.requestInfo "id1".data ⟨"p".data, [], []⟩,
           WorkflowEvent.output "done".data]) ∧
    ∃ v, lastOutput
      [WorkflowEvent.requestInfo "id1".data ⟨"p".data, [], []⟩,
       WorkflowEvent.output "done".data] = some v :=
  output_event_ends_caller_loop _ _ "done".data (by decide)

/-- C6: every pending-request id issued in a run is distinct from every
other id issued in the same run, across any interleaving of registrations
and resolutions; an id is never reused even after its request is resolved
(broker modelled from the spec). -/
theorem broker_ids_all_distinct (ops : List BrokerOp) :
    (Broker.runOps Broker.init ops).issued.Nodup :=
  (Broker.wf_runOps ops Broker.init ⟨List.nodup_nil, by simp [Broker.init]⟩).1

/-- C7: when the agent response parses as the structured schema, the emitted
approval request prompt embeds all four structured fields and the request
ticker equals the parsed recommendation ticker. -/
theorem parsed_prompt_embeds_fields (parse : Str → Option InvestmentRecommendation)
    (responseText : Option Str) (r : InvestmentRecommendation)
    (h : parse (responseText.getD []) = some r) :
    on_agent_response parse responseText =
      [TurnEffect.sendApprovalRequest ⟨formatPrompt r, responseText.getD [], r.ticker⟩] ∧
    containsSub r.ticker (formatPrompt r) = true ∧
    containsSub r.action (formatPrompt r) = true ∧
    containsSub r.confidence (formatPrompt r) = true ∧
    containsSub r.rationale (formatPrompt r) = true := by
  refine ⟨by simp [on_agent_response, h], ?_, ?_, ?_, ?_⟩
  · refine containsSub_of_parts _
      ("\n".data ++ eqLine ++ "\n".data ++ "INVESTMENT RECOMMENDATION\n".data ++
        eqLine ++ "\n".data ++ "Ticker: ".data)
      ("\n".data ++
        "Action: ".data ++ r.action ++ "\n".data ++
        "Confidence: ".data ++ r.confidence ++ "\n".data ++
        "Rationale: ".data ++ r.rationale ++ "\n".data ++
        eqLine ++ "\n\n".data ++
        "Type one of:\n".data ++
        "  approve - Execute this recommendation\n".data ++
        "  refine <feedback> - Request modifications (e.g., \x27refine focus on risk factors\x27)\n".data ++
        "  exit - Cancel and exit\n".data) _ ?_
    simp only [formatPrompt, List.append_assoc]
  · refine containsSub_of_parts _
      ("\n".data ++ eqLine ++ "\n".data ++ "INVESTMENT RECOMMENDATION\n".data ++
        eqLine ++ "\n".data ++ "Ticker: ".data ++ r.ticker ++ "\n".data ++
        "Action: ".data)
      ("\n".data ++
        "Confidence: ".data ++ r.confidence ++ "\n".data ++
        "Rationale: ".data ++ r.rationale ++ "\n".data ++
        eqLine ++ "\n\n".data ++
        "Type one of:\n".data ++
        "  approve - Execute this recommendation\n".data ++
        "  refine <feedback> - Request modifications (e.g., \x27refine focus on risk factors\x27)\n".data ++
        "  exit - Cancel and exit\n".data) _ ?_
    simp only [formatPrompt, List.append_assoc]
  · refine containsSub_of_parts _
      ("\n".data ++ eqLine ++ "\n".data ++ "INVESTMENT RECOMMENDATION\n".data ++
        eqLine ++ "\n".data ++ "Ticker: ".data ++ r.ticker ++ "\n".data ++
        "Action: ".data ++ r.action ++ "\n".data ++
        "Confidence: ".data)
      ("\n".data ++
        "Rationale: ".data ++ r.rationale ++ "\n".data ++
        eqLine ++ "\n\n".data ++
        "Type one of:\n".data ++
        "  approve - Execute this recommendation\n".data ++
        "  refine <feedback> - Request modifications (e.g., \x27refine focus on risk factors\x27)\n".data ++
        "  exit - Cancel and exit\n".data) _ ?_
    simp only [formatPrompt, List.append_assoc]
  · refine containsSub_of_parts _
      ("\n".data ++ eqLine ++ "\n".data ++ "INVESTMENT RECOMMENDATION\n".data ++
        eqLine ++ "\n".data ++ "Ticker: ".data ++ r.ticker ++ "\n".data ++
        "Action: ".data ++ r.action ++ "\n".data ++
        "Confidence: ".data ++ r.confidence ++ "\n".data ++
        "Rationale: ".data)
      ("\n".data ++
        eqLine ++ "\n\n".data ++
        "Type one of:\n".data ++
        "  approve - Execute this recommendation\n".data ++
        "  refine <feedback> - Request modifications (e.g., \x27refine focus on risk factors\x27)\n".data ++
        "  exit - Cancel and exit\n".data) _ ?_
    simp only [formatPrompt, List.append_assoc]

/-- C7 witness: a concrete well-formed recommendation for AAPL. -/
theorem parsed_prompt_embeds_fields_witness :
    on_agent_response
      (fun _ => some ⟨"AAPL".data, "BUY".data, "strong fundamentals".data, "HIGH".data⟩)
      (some "raw".data) =
      [TurnEffect.sendApprovalRequest
        ⟨formatPrompt ⟨"AAPL".data, "BUY".data, "strong fundamentals".data, "HIGH".data⟩,
         (some "raw".data).getD [],
         InvestmentRecommendation.ticker
           ⟨"AAPL".data, "BUY".data, "strong fundamentals".data, "HIGH".data⟩⟩] ∧
    containsSub "AAPL".data
      (formatPrompt ⟨"AAPL".data, "BUY".data, "strong fundamentals".data, "HIGH".data⟩) = true ∧
    containsSub "BUY".data
      (formatPrompt ⟨"AAPL".data, "BUY".data, "strong fundamentals".data, "HIGH".data⟩) = true ∧
    containsSub "HIGH".data
      (formatPrompt ⟨"AAPL".data, "BUY".data, "strong fundamentals".data, "HIGH".data⟩) = true ∧
    containsSub "strong fundamentals".data
      (formatPrompt ⟨"AAPL".data, "BUY".data, "strong fundamentals".data, "HIGH".data⟩) = true :=
  parsed_prompt_embeds_fields
    (fun _ => some ⟨"AAPL".data, "BUY".data, "strong fundamentals".data, "HIGH".data⟩)
    (some "raw".data) _ rfl

/-- C8: a prompt answer whose trimmed, case-folded form is "exit" makes the
caller loop terminate the run without delivering any collected reply into
the graph and without producing a completed output. -/
theorem exit_cancels_run (events : List WorkflowEvent) (answer : Str → Str)
    (rid p : Str) (hmem : (rid, p) ∈ collectRequests events)
    (hexit : pyLower (pyStrip (answer rid)) = "exit".data)
    (hnoout : events.any isOutputEvent = false) :
    loopIteration events answer = IterResult.cancelled := by
  have hnone := collectAnswers_none_of_exit answer (collectRequests events) rid p hmem hexit
  have hne : (collectRequests events).isEmpty = false := by
    cases hreq : collectRequests events with
    | nil => rw [hreq] at hmem; simp at hmem
    | cons a as => rfl
  simp [loopIteration, hnoout, hne, hnone]

/-- C8 witness: a stream with one pending request answered " EXIT ". -/
theorem exit_cancels_run_witness :
    loopIteration [WorkflowEvent.requestInfo "id1".data ⟨"p".data, [], []⟩]
      (fun _ => " EXIT ".data) = IterResult.cancelled :=
  exit_cancels_run _ _ "id1".data "p".data (by decide) (by decide) (by decide)

/-- C9: a bare "refine" reply (after trimming and case-folding) still emits
a refinement request, with the default feedback text "provide more
details". -/
theorem bare_refine_default_feedback (data : Str) (req : InvestmentApprovalRequest)
    (h : pyLower (pyStrip data) = "refine".data) :
    on_human_feedback (some data) req =
      [TurnEffect.sendAgentRequest
        ⟨[⟨Role.user, refinementMessageText "provide more details".data⟩], true⟩] := by
  simp only [on_human_feedback, Option.getD_some, h]
  rw [if_neg (by decide), if_pos (by decide), if_neg (by decide)]

/-- C9 witness: the concrete reply " Refine ". -/
theorem bare_refine_default_feedback_witness :
    on_human_feedback (some " Refine ".data) ⟨[], [], "MSFT".data⟩ =
      [TurnEffect.sendAgentRequest
        ⟨[⟨Role.user, refinementMessageText "provide more details".data⟩], true⟩] :=
  bare_refine_default_feedback " Refine ".data ⟨[], [], "MSFT".data⟩ (by decide)

/-- C10: when parsing failed, the degraded request carries an empty ticker,
so a subsequent "approve" yields the terminal output with an empty ticker
slot: "Investment recommendation for  approved and ready for execution." -/
theorem degraded_approve_empty_ticker (parse : Str → Option InvestmentRecommendation)
    (responseText : Option Str) (h : parse (responseText.getD []) = none) :
    ∃ req : InvestmentApprovalRequest,
      on_agent_response parse responseText = [TurnEffect.sendApprovalRequest req] ∧
      req.ticker = [] ∧
      on_human_feedback (some "approve".data) req =
        [TurnEffect.yieldOutput
          "Investment recommendation for  approved and ready for execution.".data] := by
  refine ⟨⟨degradedPrompt (responseText.getD []), responseText.getD [], []⟩,
    by simp [on_agent_response, h], rfl, ?_⟩
  simp only [on_human_feedback, Option.getD_some]
  rw [if_pos (by decide)]
  show [TurnEffect.yieldOutput (approveOutputText [])] = _
  decide

/-- C10 witness: a concrete unparseable response followed by "approve". -/
theorem degraded_approve_empty_ticker_witness :
    ∃ req : InvestmentApprovalRequest,
      on_agent_response (fun _ => none) (some "oops".data) =
        [TurnEffect.sendApprovalRequest req] ∧
      req.ticker = [] ∧
      on_human_feedback (some "approve".data) req =
        [TurnEffect.yieldOutput
          "Investment recommendation for  approved and ready for execution.".data] :=
  degraded_approve_empty_ticker (fun _ => none) (some "oops".data) rfl

end InvestApproval
